import Mathlib

/-!
Shallow embedding of the command-dispatch engine and the audio/TTS
coordination of the rose voice assistant, together with proofs of the
behavioural properties its specification states.

The embedding covers:
* `voice_commands.py` — `VoiceCommandManager` (registries, `process_voice_input`,
  `_match_pattern`, `_execute_command`, `_record_response_time`,
  `get_average_response_time`);
* `fast_tts.py` — `FastTTSService` (`speak`, `speak_immediate`, `_tts_worker`,
  `_process_tts_request`);
* `media_services.py` — `TTSService` (`speak`'s background runner, `is_playing`);
* `rose_v30_refactored.py` — the background-listener `callback`.

Python callables (command handlers) are represented by opaque numeric
identifiers; wall-clock instants and durations are rationals; Python
exceptions are `Except` values; the fire-and-forget thread spawns and the
external synthesis/playback calls are recorded as explicit actions in a trace
so that theorems can speak about which effects an operation performs.
-/

namespace Rose

/-- Embeds `CommandPriority` (voice_commands.py): HIGH / NORMAL / LOW. -/
inductive CommandPriority where
  | high
  | normal
  | low
deriving DecidableEq, Repr

/-- Embeds the `VoiceCommand` dataclass (voice_commands.py).  The Python
`handler` is an arbitrary callable; it is represented here by an opaque
numeric identifier, which is all the dispatch logic ever depends on. -/
structure VoiceCommand where
  pattern : String
  handler : Nat
  description : String
  priority : CommandPriority := CommandPriority.normal
  requires_confirmation : Bool := false
  category : String := "general"
deriving DecidableEq, Repr

/-- A Python `dict[str, VoiceCommand]` in its (insertion-ordered) iteration
order: the list of `(key, value)` items. -/
abbrev Registry := List (String × VoiceCommand)

/-- Assignment `m[k] = v` on an insertion-ordered dict: an existing key keeps
its position and gets the new value, a new key is appended at the end. -/
def dictInsert (m : Registry) (k : String) (v : VoiceCommand) : Registry :=
  if m.any (fun e => e.1 = k) then
    m.map (fun e => if e.1 = k then (k, v) else e)
  else
    m ++ [(k, v)]

/-- Embeds the mutable attributes of `VoiceCommandManager` (voice_commands.py):
`commands`, `custom_commands`, `command_history`, `is_processing`,
`response_times`. -/
structure ManagerState where
  commands : Registry
  custom_commands : Registry
  command_history : List String
  is_processing : Bool
  response_times : List ℚ
deriving DecidableEq, Repr

/-- Embeds `VoiceCommandManager.add_command`: builds a `VoiceCommand` and
stores it under its pattern in `commands`. -/
def add_command (st : ManagerState) (pattern : String) (handler : Nat)
    (description : String) (priority : CommandPriority := CommandPriority.normal)
    (requires_confirmation : Bool := false) (category : String := "general") :
    ManagerState :=
  let command : VoiceCommand :=
    ⟨pattern, handler, description, priority, requires_confirmation, category⟩
  { st with commands := dictInsert st.commands pattern command }

/-- Embeds `VoiceCommandManager.add_custom_command`: builds a `VoiceCommand`
and stores it under its pattern in `custom_commands`. -/
def add_custom_command (st : ManagerState) (pattern : String) (handler : Nat)
    (description : String) (priority : CommandPriority := CommandPriority.normal)
    (requires_confirmation : Bool := false) (category : String := "custom") :
    ManagerState :=
  let command : VoiceCommand :=
    ⟨pattern, handler, description, priority, requires_confirmation, category⟩
  { st with custom_commands := dictInsert st.custom_commands pattern command }

/-- ASCII lower-casing of one character, as Python `str.lower` acts on the
ASCII texts this system handles. -/
def charLower (c : Char) : Char :=
  if 65 ≤ c.toNat ∧ c.toNat ≤ 90 then Char.ofNat (c.toNat + 32) else c

/-- Python `str.lower` on the character list of a string. -/
def pyLower (cs : List Char) : List Char := cs.map charLower

/-- The whitespace characters Python `str.strip` removes (ASCII range). -/
def isPySpace (c : Char) : Bool :=
  c = ' ' || c = '\t' || c = '\n' || c = '\r' || c = '\x0b' || c = '\x0c'

/-- Python `str.strip` on the character list of a string: drop leading and
trailing whitespace. -/
def pyStrip (cs : List Char) : List Char :=
  ((cs.dropWhile isPySpace).reverse.dropWhile isPySpace).reverse

/-- Python `str.split(sep)` for a one-character separator, on character
lists: `"".split` gives one empty field, and every separator occurrence
starts a new field. -/
def pySplitOnChar (sep : Char) : List Char → List (List Char)
  | [] => [[]]
  | c :: rest =>
    let r := pySplitOnChar sep rest
    if c = sep then [] :: r
    else
      match r with
      | [] => [[c]]
      | g :: gs => (c :: g) :: gs

/-- Python `str.lower` as a string-to-string map. -/
def pyLowerStr (s : String) : String := String.mk (pyLower s.data)

/-- Python `str.strip` as a string-to-string map. -/
def pyStripStr (s : String) : String := String.mk (pyStrip s.data)

/-- Python `s.split(sep)` with a one-character separator, yielding strings. -/
def pySplit (s : String) (sep : Char) : List String :=
  (pySplitOnChar sep s.data).map String.mk

/-- Embeds the text normalisation at the top of `process_voice_input`:
`text = text.lower().strip()`. -/
def normInput (text : String) : String := pyStripStr (pyLowerStr text)

/-- Embeds `_record_response_time` (voice_commands.py): append the sample,
then keep only the last 100 entries (`self.response_times[-100:]`). -/
def _record_response_time (times : List ℚ) (response_time : ℚ) : List ℚ :=
  let times := times ++ [response_time]
  if times.length > 100 then times.drop (times.length - 100) else times

/-- Embeds `get_average_response_time` (voice_commands.py): 0 when the buffer
is empty, otherwise the arithmetic mean. -/
def get_average_response_time (times : List ℚ) : ℚ :=
  if times.isEmpty then 0 else times.sum / times.length

/-- The `for p in patterns: if re.search(p.strip(), text): return True` loop
inside `_match_pattern`.  The regex primitive `prim` (the embedding of
`re.search` with `IGNORECASE`) may raise — `re.error` on a malformed
pattern — which is modelled by `Except`. -/
def firstAltMatch (prim : String → String → Except String Bool)
    (ps : List String) (text : String) : Except String Bool :=
  match ps with
  | [] => Except.ok false
  | p :: rest => do
    let b ← prim (pyStripStr p) text
    if b then Except.ok true else firstAltMatch prim rest text

/-- Embeds `_match_pattern` (voice_commands.py): split the stored pattern on
the character `|` and test each stripped alternative against the text. -/
def _match_pattern (prim : String → String → Except String Bool)
    (pattern text : String) : Except String Bool :=
  firstAltMatch prim (pySplit pattern '|') text

/-- The scan loop `for pattern, command in <dict>.items(): if
self._match_pattern(pattern, text): ...` of `process_voice_input`: the first
entry whose pattern matches, or `none`. -/
def findCommand (prim : String → String → Except String Bool)
    (entries : Registry) (text : String) :
    Except String (Option (String × VoiceCommand)) :=
  match entries with
  | [] => Except.ok none
  | e :: rest => do
    let b ← _match_pattern prim e.1 text
    if b then Except.ok (some e) else findCommand prim rest text

/-- Outcome of one call to `process_voice_input`: the manager state on
return, the returned Boolean (or the propagated exception), and the trace of
`_execute_command` spawns — the registry entries whose handler threads were
started, in order. -/
structure PviResult where
  state : ManagerState
  result : Except String Bool
  executed : List (String × VoiceCommand)
deriving Repr

/-- Embeds `process_voice_input` (voice_commands.py).  A call that finds
`is_processing` already true returns `False` immediately.  Otherwise the
guard is set, the text normalised and appended to `command_history`, the
custom registry is scanned first and the builtin registry second, the first
matching entry's handler is spawned (`_execute_command`) and the decision
latency `lat` recorded; the `try/finally` clears `is_processing` on every
exit path, including a propagating match exception. -/
def process_voice_input (prim : String → String → Except String Bool)
    (st : ManagerState) (text : String) (lat : ℚ) : PviResult :=
  if st.is_processing then
    ⟨st, Except.ok false, []⟩
  else
    let t := normInput text
    let st1 : ManagerState :=
      { st with is_processing := true,
                command_history := st.command_history ++ [t] }
    match findCommand prim st1.custom_commands t with
    | Except.error e => ⟨{ st1 with is_processing := false }, Except.error e, []⟩
    | Except.ok (some c) =>
      let recorded := _record_response_time st1.response_times lat
      ⟨{ st1 with is_processing := false, response_times := recorded },
        Except.ok true, [c]⟩
    | Except.ok none =>
      match findCommand prim st1.commands t with
      | Except.error e => ⟨{ st1 with is_processing := false }, Except.error e, []⟩
      | Except.ok (some c) =>
        let recorded := _record_response_time st1.response_times lat
        ⟨{ st1 with is_processing := false, response_times := recorded },
          Except.ok true, [c]⟩
      | Except.ok none => ⟨{ st1 with is_processing := false }, Except.ok false, []⟩

/-- Lifts a total (never-raising) match primitive into the `Except` form. -/
def liftPrim (prim : String → String → Bool) :
    String → String → Except String Bool :=
  fun p t => Except.ok (prim p t)

/-- Boolean form of `_match_pattern` for a total primitive: some stripped
`|`-alternative of the stored pattern matches the text. -/
def matchPatternB (prim : String → String → Bool) (pattern text : String) : Bool :=
  (pySplit pattern '|').any (fun p => prim (pyStripStr p) text)

/-- Contiguous-sublist test on character lists (Python `p in text`): `p`
occurs as a prefix of some suffix of `s`. -/
def charsInfix (p : List Char) : List Char → Bool
  | [] => p.isEmpty
  | c :: rest => p.isPrefixOf (c :: rest) || charsInfix p rest

/-- Embedding of `re.search(p, text, re.IGNORECASE)` for the literal
(metacharacter-free) trigger patterns the default registry registers: a
case-insensitive substring test. -/
def reSearchLit (p text : String) : Bool :=
  charsInfix (pyLower p.data) (pyLower text.data)

/-- Embeds `_setup_default_commands` (voice_commands.py): the twelve built-in
commands registered by `__init__`, in source order.  Handler identifiers
0–11 stand for `_handle_system_command` … `_handle_list_commands`. -/
def _setup_default_commands (st : ManagerState) : ManagerState :=
  let st := add_command st "close|exit|quit|shutdown" 0 "Close the application"
      CommandPriority.high false "system"
  let st := add_command st "minimize|min|hide" 1 "Minimize the window"
      CommandPriority.high false "system"
  let st := add_command st "maximize|max|fullscreen" 2 "Maximize the window"
      CommandPriority.high false "system"
  let st := add_command st "play music|start music|music" 3 "Play music"
      CommandPriority.normal false "media"
  let st := add_command st "stop music|pause music|stop" 4 "Stop music"
      CommandPriority.normal false "media"
  let st := add_command st "volume up|louder|increase volume" 5 "Increase volume"
      CommandPriority.normal false "media"
  let st := add_command st "volume down|quieter|decrease volume" 6 "Decrease volume"
      CommandPriority.normal false "media"
  let st := add_command st "hello|hi|hey|greetings" 7 "Greet the assistant"
      CommandPriority.normal false "ai"
  let st := add_command st "what time|current time|time" 8 "Get current time"
      CommandPriority.normal false "ai"
  let st := add_command st "what date|current date|date" 9 "Get current date"
      CommandPriority.normal false "ai"
  let st := add_command st "help|commands|what can you do" 10 "Show available commands"
      CommandPriority.low false "help"
  let st := add_command st "list commands|show commands" 11 "List all commands"
      CommandPriority.low false "help"
  st

/-- Embeds `VoiceCommandManager.__init__`: empty registries and history,
guard clear, empty metrics buffer, then the default commands. -/
def managerInit : ManagerState :=
  _setup_default_commands ⟨[], [], [], false, []⟩

/-- Embeds the mutable state of `TTSService` (media_services.py) that the
claims touch: the `tts_playing` gate flag. -/
structure TTSState where
  tts_playing : Bool
deriving DecidableEq, Repr

/-- Embeds `TTSService.is_playing` (media_services.py): a plain read of
`tts_playing`. -/
def is_playing (st : TTSState) : Bool := st.tts_playing

/-- External effects performed by a speech request: a synthesis call (tagged
with the request's text; the surrounding SSML wrapper is elided), a playback
call on the system's sink, and the user-supplied completion callback. -/
inductive TTSAct where
  | synth (text : String)
  | play
  | cb
deriving DecidableEq, Repr

/-- Embeds the `_runner` closure of `TTSService.speak` (media_services.py):
set `tts_playing`, attempt synthesis and playback inside `try`, and in the
`finally` block sleep for the estimated duration and clear `tts_playing`.
`synthFails` models the synthesis call raising (the exception is caught by
the `except` clause; `_play_file_default` catches its own errors and never
raises).  Returns the state on exit and the trace of performed effects. -/
def tts_speak_runner (st : TTSState) (text : String) (synthFails : Bool) :
    TTSState × List TTSAct :=
  let _ := { st with tts_playing := true }
  let acts := TTSAct.synth text :: (if synthFails then [] else [TTSAct.play])
  ({ st with tts_playing := false }, acts)

/-- Embeds a queued TTS request dict of `FastTTSService.speak`
(fast_tts.py): text, resolved voice parameters, presence of a completion
callback, and the enqueue timestamp. -/
structure TTSRequest where
  text : String
  voice : String
  rate : String
  pitch : String
  volume : String
  hasCallback : Bool
  timestamp : ℚ
deriving DecidableEq, Repr

/-- Embeds the mutable attributes of `FastTTSService` (fast_tts.py):
availability of edge-tts, the FIFO `voice_queue` (front of the list is the
next item dequeued), the `is_speaking` flag and the default voice
parameters. -/
structure FastTTSState where
  is_available : Bool
  voice_queue : List TTSRequest
  is_speaking : Bool
  current_voice : String
  rate : String
  pitch : String
  volume : String
deriving DecidableEq, Repr

/-- The two speech objects living in one process: the `tts_service` instance
of `TTSService` (media_services.py) and the `fast_tts` instance of
`FastTTSService` (fast_tts.py).  Modelling `FastTTSService`'s methods on
this combined state makes it expressible that they leave `tts_service`
untouched. -/
structure SystemState where
  tts : TTSState
  fast : FastTTSState
deriving DecidableEq, Repr

/-- Python's `a or default` on an optional string argument: `None` and the
empty string are both falsy and fall back to the default. -/
def pyOr (v : Option String) (d : String) : String :=
  match v with
  | none => d
  | some s => if s = "" then d else s

/-- Embeds `FastTTSService.speak` (fast_tts.py): when edge-tts is
unavailable, print a fallback and fire the callback (no state change);
otherwise resolve the voice parameters against the instance defaults and
append the request dict, stamped with the current time, to `voice_queue`. -/
def fast_speak (s : SystemState) (text : String)
    (voice rate pitch volume : Option String) (hasCallback : Bool) (now : ℚ) :
    SystemState :=
  if !s.fast.is_available then s
  else
    let req : TTSRequest :=
      ⟨text, pyOr voice s.fast.current_voice, pyOr rate s.fast.rate,
        pyOr pitch s.fast.pitch, pyOr volume s.fast.volume, hasCallback, now⟩
    { s with fast := { s.fast with voice_queue := s.fast.voice_queue ++ [req] } }

/-- Embeds `FastTTSService.speak_immediate` (fast_tts.py): when available,
drain `voice_queue` (`_clear_queue`), stop current playback
(`_stop_current_speech`, which only touches the pygame mixer), then enqueue
via `speak` with no explicit rate/pitch/volume and no callback. -/
def fast_speak_immediate (s : SystemState) (text : String)
    (voice : Option String) (now : ℚ) : SystemState :=
  if !s.fast.is_available then s
  else
    let cleared := { s with fast := { s.fast with voice_queue := [] } }
    fast_speak cleared text voice none none none false now

/-- Embeds `FastTTSService._process_tts_request` (fast_tts.py): build the
SSML and call `_generate_audio` (`genOk = false` models it returning `None`
after catching a synthesis error); play the result only when audio was
produced; invoke the callback, if any, in either case.  All exceptions
inside are caught by the method's own `except` clause. -/
def _process_tts_request (req : TTSRequest) (genOk : Bool) : List TTSAct :=
  TTSAct.synth req.text ::
    ((if genOk then [TTSAct.play] else []) ++
      (if req.hasCallback then [TTSAct.cb] else []))

/-- Embeds one iteration of `FastTTSService._tts_worker` (fast_tts.py).  An
empty queue raises `queue.Empty`, which is caught and the loop continues.
Otherwise the head request is dequeued; if it is older than 5 seconds it is
skipped (`continue`) without touching `is_speaking`; otherwise `is_speaking`
is set, the request is processed, and `is_speaking` is cleared — `escape`
models an exception reaching the worker's own `except Exception` handler,
which also clears `is_speaking`. -/
def tts_worker_step (s : SystemState) (now : ℚ) (genOk escape : Bool) :
    SystemState × List TTSAct :=
  match s.fast.voice_queue with
  | [] => (s, [])
  | req :: rest =>
    let s1 := { s with fast := { s.fast with voice_queue := rest } }
    if now - req.timestamp > 5 then (s1, [])
    else if escape then
      ({ s1 with fast := { s1.fast with is_speaking := false } }, [])
    else
      ({ s1 with fast := { s1.fast with is_speaking := false } },
        _process_tts_request req genOk)

/-- The worker loop run over a sequence of iterations, each supplied with its
dequeue instant and failure outcomes; collects the trace of every
iteration. -/
def tts_worker_run (s : SystemState) : List (ℚ × Bool × Bool) →
    SystemState × List (List TTSAct)
  | [] => (s, [])
  | (now, genOk, escape) :: rest =>
    let (s1, acts) := tts_worker_step s now genOk escape
    let (s2, traces) := tts_worker_run s1 rest
    (s2, acts :: traces)

/-- Outcome of one `recognizer.recognize_google(audio)` call in the
background-listener callback (rose_v30_refactored.py): a transcription, an
`sr.UnknownValueError`, or any other exception (routed to the error
handler). -/
inductive RecogResult where
  | ok (text : String)
  | unknownValue
  | err
deriving DecidableEq, Repr

/-- Observable actions of the background-listener callback
(rose_v30_refactored.py): the transcription call itself, and the spawn of a
`handle_command` thread for a recognised text. -/
inductive CbAct where
  | transcribeCall
  | dispatchCommand (text : String)
deriving DecidableEq, Repr

/-- Embeds the `callback` closure of `_start_background_listener`
(rose_v30_refactored.py): if `tts_service.is_playing()` the capture result
is discarded at once; otherwise `recognize_google` is called and, when it
returns a non-empty, non-blank text, a `handle_command` thread is spawned
for it.  Recognition errors spawn nothing. -/
def bg_callback (tts : TTSState) (r : RecogResult) : List CbAct :=
  if is_playing tts then []
  else
    CbAct.transcribeCall ::
      (match r with
        | RecogResult.ok text =>
          if text ≠ "" ∧ pyStripStr text ≠ "" then [CbAct.dispatchCommand text] else []
        | RecogResult.unknownValue => []
        | RecogResult.err => [])

/-! ### Helper lemmas -/

lemma firstAltMatch_lift (prim : String → String → Bool) (ps : List String)
    (t : String) :
    firstAltMatch (liftPrim prim) ps t =
      Except.ok (ps.any (fun p => prim (pyStripStr p) t)) := by
  induction ps with
  | nil => rfl
  | cons p rest ih =>
    by_cases h : prim (pyStripStr p) t <;>
      simp [firstAltMatch, liftPrim, h, ih, Bind.bind, Except.bind]

lemma match_pattern_lift (prim : String → String → Bool) (pat t : String) :
    _match_pattern (liftPrim prim) pat t = Except.ok (matchPatternB prim pat t) := by
  simp [_match_pattern, matchPatternB, firstAltMatch_lift]

lemma findCommand_lift (prim : String → String → Bool) (entries : Registry)
    (t : String) :
    findCommand (liftPrim prim) entries t =
      Except.ok (entries.find? (fun e => matchPatternB prim e.1 t)) := by
  induction entries with
  | nil => rfl
  | cons e rest ih =>
    by_cases h : matchPatternB prim e.1 t <;>
      simp [findCommand, match_pattern_lift, h, ih, List.find?_cons, Bind.bind, Except.bind]

/-- Full characterisation of an accepted `process_voice_input` call with a
total match primitive: the fired entry is the first match of the
concatenated custom-then-builtin scan, the returned Boolean is its
presence, the guard is clear on return, and the metrics buffer grows
exactly when a match fired. -/
lemma process_voice_input_lift (prim : String → String → Bool)
    (st : ManagerState) (text : String) (lat : ℚ) (h : st.is_processing = false) :
    (process_voice_input (liftPrim prim) st text lat).executed =
      ((st.custom_commands ++ st.commands).find?
        (fun e => matchPatternB prim e.1 (normInput text))).toList ∧
    (process_voice_input (liftPrim prim) st text lat).result =
      Except.ok ((st.custom_commands ++ st.commands).find?
        (fun e => matchPatternB prim e.1 (normInput text))).isSome ∧
    (process_voice_input (liftPrim prim) st text lat).state.is_processing = false ∧
    (process_voice_input (liftPrim prim) st text lat).state.response_times =
      (if ((st.custom_commands ++ st.commands).find?
            (fun e => matchPatternB prim e.1 (normInput text))).isSome
        then _record_response_time st.response_times lat
        else st.response_times) := by
  cases hc : st.custom_commands.find?
      (fun e => matchPatternB prim e.1 (normInput text)) with
  | some c =>
    simp [process_voice_input, h, findCommand_lift, hc, List.find?_append,
      Option.or]
  | none =>
    cases hb : st.commands.find?
        (fun e => matchPatternB prim e.1 (normInput text)) with
    | some c =>
      simp [process_voice_input, h, findCommand_lift, hc, hb,
        List.find?_append, Option.or]
    | none =>
      simp [process_voice_input, h, findCommand_lift, hc, hb,
        List.find?_append, Option.or]

/-- Scanning two lists whose images under `f` agree, with a predicate that
only looks at that image, finds `f`-equal results. -/
lemma find?_map_congr {α β : Type} (f : α → β) (q : β → Bool) :
    ∀ l1 l2 : List α, l1.map f = l2.map f →
      (l1.find? (fun a => q (f a))).map f = (l2.find? (fun a => q (f a))).map f := by
  intro l1
  induction l1 with
  | nil =>
    intro l2 h
    cases l2 with
    | nil => rfl
    | cons b t => simp at h
  | cons a t1 ih =>
    intro l2 h
    cases l2 with
    | nil => simp at h
    | cons b t2 =>
      simp only [List.map_cons, List.cons.injEq] at h
      obtain ⟨hab, htl⟩ := h
      by_cases hq : q (f a)
      · have hqb : q (f b) = true := by rw [← hab]; exact hq
        simp [List.find?_cons, hq, hqb, hab]
      · have hqb : ¬ q (f b) = true := by rw [← hab]; exact hq
        simp only [List.find?_cons, Bool.not_eq_true] at hq hqb ⊢
        simp [hq, hqb, ih t2 htl]

/-- The metrics buffer after recording a whole sequence of samples in order
(each call to `_record_response_time` starting from the empty buffer). -/
def recordAll (samples : List ℚ) : List ℚ :=
  samples.foldl _record_response_time []

/-- One recording step on a buffer that is the last-100 window of `ls`
extends the window to `ls ++ [x]`. -/
lemma record_step (ls : List ℚ) (x : ℚ) :
    _record_response_time (ls.drop (ls.length - 100)) x =
      (ls ++ [x]).drop (ls.length + 1 - 100) := by
  have hlen : (ls.drop (ls.length - 100)).length = ls.length - (ls.length - 100) :=
    List.length_drop ..
  by_cases hle : ls.length < 100
  · have h0 : ls.length - 100 = 0 := by omega
    have h1 : ls.length + 1 - 100 = 0 := by omega
    simp only [_record_response_time, h0, h1, List.drop_zero]
    rw [if_neg]
    simp only [List.length_append, List.length_cons, List.length_nil]
    omega
  · have h100 : (ls.drop (ls.length - 100)).length = 100 := by omega
    have hgt : (ls.drop (ls.length - 100) ++ [x]).length > 100 := by
      rw [List.length_append, h100]; simp
    have harg : (ls.drop (ls.length - 100) ++ [x]).length - 100 = 1 := by
      rw [List.length_append, h100]; rfl
    simp only [_record_response_time]
    rw [if_pos hgt, harg]
    have hd1 : (1 : ℕ) ≤ (ls.drop (ls.length - 100)).length := by omega
    rw [List.drop_append_of_le_length hd1, List.drop_drop]
    have harith : ls.length - 100 + 1 = ls.length + 1 - 100 := by omega
    rw [harith]
    have hle2 : ls.length + 1 - 100 ≤ ls.length := by omega
    rw [List.drop_append_of_le_length hle2]

/-- After any sequence of recordings the buffer is exactly the most recent
100 samples (all of them while there are at most 100). -/
lemma recordAll_eq_drop (samples : List ℚ) :
    recordAll samples = samples.drop (samples.length - 100) := by
  induction samples using List.reverseRecOn with
  | nil => rfl
  | append_singleton ls x ih =>
    have : recordAll (ls ++ [x]) = _record_response_time (recordAll ls) x := by
      simp [recordAll, List.foldl_append]
    rw [this, ih, record_step]
    simp [List.length_append]

/-- A worker-loop iteration keeps the speaking gate clear. -/
lemma tts_worker_step_gate (s : SystemState) (now : ℚ) (genOk escape : Bool)
    (h : s.fast.is_speaking = false) :
    (tts_worker_step s now genOk escape).1.fast.is_speaking = false := by
  rcases hq : s.fast.voice_queue with _ | ⟨req, rest⟩
  · simp [tts_worker_step, hq, h]
  · by_cases hst : now - req.timestamp > 5
    · simp [tts_worker_step, hq, hst, h]
    · by_cases hesc : escape <;> simp [tts_worker_step, hq, hst, hesc]

/-- A worker-loop iteration always consumes exactly the head of the queue. -/
lemma tts_worker_step_queue (s : SystemState) (now : ℚ) (genOk escape : Bool) :
    (tts_worker_step s now genOk escape).1.fast.voice_queue =
      s.fast.voice_queue.tail := by
  rcases hq : s.fast.voice_queue with _ | ⟨req, rest⟩
  · simp [tts_worker_step, hq]
  · by_cases hst : now - req.timestamp > 5
    · simp [tts_worker_step, hq, hst]
    · by_cases hesc : escape <;> simp [tts_worker_step, hq, hst, hesc]

/-- Running the worker over any iteration sequence keeps the gate clear and
yields one trace per iteration. -/
lemma tts_worker_run_gate (inputs : List (ℚ × Bool × Bool)) :
    ∀ s : SystemState, s.fast.is_speaking = false →
      (tts_worker_run s inputs).1.fast.is_speaking = false ∧
      (tts_worker_run s inputs).2.length = inputs.length := by
  induction inputs with
  | nil => intro s h; exact ⟨h, rfl⟩
  | cons i rest ih =>
    intro s h
    obtain ⟨now, genOk, escape⟩ := i
    have hstep := tts_worker_step_gate s now genOk escape h
    have := ih (tts_worker_step s now genOk escape).1 hstep
    simpa [tts_worker_run] using this

/-- A manager state with one custom command registered on top of the default
registry, used to instantiate theorems at a concrete input. -/
def customState : ManagerState :=
  add_custom_command managerInit "hello friend|hello" 42 "Custom greeting"

/-! ### Claim theorems -/

/-- C1: while `tts_service.is_playing()` reports speaking, the
background-listener callback discards the capture result: it performs no
action at all — in particular it never calls the transcriber and never
spawns `handle_command`. -/
theorem callback_discards_while_speaking (tts : TTSState) (r : RecogResult)
    (h : is_playing tts = true) :
    bg_callback tts r = [] ∧
    ∀ t : String, CbAct.dispatchCommand t ∉ bg_callback tts r := by
  have hnil : bg_callback tts r = [] := by simp [bg_callback, h]
  exact ⟨hnil, by simp [hnil]⟩

/-- Witness for C1: the gate set, a successfully recognised phrase — still
nothing happens. -/
theorem callback_discards_while_speaking_witness :
    is_playing ⟨true⟩ = true ∧
    (bg_callback ⟨true⟩ (RecogResult.ok "play music") = [] ∧
      ∀ t : String,
        CbAct.dispatchCommand t ∉ bg_callback ⟨true⟩ (RecogResult.ok "play music")) :=
  ⟨rfl, callback_discards_while_speaking ⟨true⟩ (RecogResult.ok "play music") rfl⟩

/-- C2: an accepted `process_voice_input` call scans the custom mapping in
insertion order and then the builtin mapping in insertion order; the handler
spawned is exactly that of the first entry with a matching trigger
alternative, spawned exactly once (`executed` is that single entry, or empty
when nothing matches, so no later entry — whatever its declared priority —
is ever executed), and the call returns true exactly when some entry
matches. -/
theorem process_voice_input_first_match_wins (prim : String → String → Bool)
    (st : ManagerState) (text : String) (lat : ℚ) (h : st.is_processing = false) :
    (process_voice_input (liftPrim prim) st text lat).executed =
      ((st.custom_commands ++ st.commands).find?
        (fun e => matchPatternB prim e.1 (normInput text))).toList ∧
    ((process_voice_input (liftPrim prim) st text lat).result = Except.ok true ↔
      ∃ e ∈ st.custom_commands ++ st.commands,
        matchPatternB prim e.1 (normInput text) = true) := by
  obtain ⟨he, hr, -, -⟩ := process_voice_input_lift prim st text lat h
  refine ⟨he, ?_⟩
  rw [hr]
  constructor
  · intro hok
    exact List.find?_isSome.mp (Except.ok.inj hok)
  · intro hex
    exact congrArg Except.ok (List.find?_isSome.mpr hex)

/-- Witness for C2: the default registry and the phrase "hello there". -/
theorem process_voice_input_first_match_wins_witness :
    managerInit.is_processing = false ∧
    ((process_voice_input (liftPrim reSearchLit) managerInit "hello there" 1).executed =
      ((managerInit.custom_commands ++ managerInit.commands).find?
        (fun e => matchPatternB reSearchLit e.1 (normInput "hello there"))).toList ∧
    ((process_voice_input (liftPrim reSearchLit) managerInit "hello there" 1).result =
        Except.ok true ↔
      ∃ e ∈ managerInit.custom_commands ++ managerInit.commands,
        matchPatternB reSearchLit e.1 (normInput "hello there") = true)) :=
  ⟨rfl, process_voice_input_first_match_wins reSearchLit managerInit "hello there" 1 rfl⟩

/-- C3: when a custom entry and a builtin entry both match, the accepted
call returns true and fires the (first matching) custom entry's handler —
every fired entry belongs to the custom mapping. -/
theorem process_voice_input_custom_precedence (prim : String → String → Bool)
    (st : ManagerState) (text : String) (lat : ℚ) (h : st.is_processing = false)
    (hc : ∃ e ∈ st.custom_commands, matchPatternB prim e.1 (normInput text) = true)
    (_hb : ∃ e ∈ st.commands, matchPatternB prim e.1 (normInput text) = true) :
    (process_voice_input (liftPrim prim) st text lat).result = Except.ok true ∧
    (process_voice_input (liftPrim prim) st text lat).executed =
      (st.custom_commands.find?
        (fun e => matchPatternB prim e.1 (normInput text))).toList ∧
    ∀ e ∈ (process_voice_input (liftPrim prim) st text lat).executed,
      e ∈ st.custom_commands := by
  obtain ⟨he, hr, -, -⟩ := process_voice_input_lift prim st text lat h
  have hcsome : (st.custom_commands.find?
      (fun e => matchPatternB prim e.1 (normInput text))).isSome := by
    simpa using List.find?_isSome.mpr hc
  obtain ⟨c, hcfind⟩ := Option.isSome_iff_exists.mp hcsome
  have happ : (st.custom_commands ++ st.commands).find?
      (fun e => matchPatternB prim e.1 (normInput text)) = some c := by
    rw [List.find?_append, hcfind]; rfl
  refine ⟨?_, ?_, ?_⟩
  · rw [hr, happ]; rfl
  · rw [he, happ, hcfind]
  · intro e hmem
    rw [he, happ] at hmem
    simp only [Option.toList_some, List.mem_singleton] at hmem
    rw [hmem]
    exact List.mem_of_find?_eq_some hcfind

/-- Witness for C3: a custom "hello friend|hello" entry on top of the
default registry, input "hello", matching both it and the builtin greeting
entry. -/
theorem process_voice_input_custom_precedence_witness :
    customState.is_processing = false ∧
    (∃ e ∈ customState.custom_commands,
      matchPatternB reSearchLit e.1 (normInput "hello") = true) ∧
    (∃ e ∈ customState.commands,
      matchPatternB reSearchLit e.1 (normInput "hello") = true) ∧
    ((process_voice_input (liftPrim reSearchLit) customState "hello" 1).result =
        Except.ok true ∧
      (process_voice_input (liftPrim reSearchLit) customState "hello" 1).executed =
        (customState.custom_commands.find?
          (fun e => matchPatternB reSearchLit e.1 (normInput "hello"))).toList ∧
      ∀ e ∈ (process_voice_input (liftPrim reSearchLit) customState "hello" 1).executed,
        e ∈ customState.custom_commands) :=
  ⟨rfl, by decide, by decide,
    process_voice_input_custom_precedence reSearchLit customState "hello" 1 rfl
      (by decide) (by decide)⟩

/-- A stale queued request (enqueued at time 0). -/
def reqStale : TTSRequest :=
  ⟨"stale hello", "en-US-AriaNeural", "+0%", "+0Hz", "+0%", false, 0⟩

/-- A fresh queued request (enqueued at time 6). -/
def reqFresh : TTSRequest :=
  ⟨"fresh hello", "en-US-AriaNeural", "+0%", "+0Hz", "+0%", true, 6⟩

/-- A concrete system: gate flags clear, two requests queued. -/
def sysQueued : SystemState :=
  ⟨⟨false⟩, ⟨true, [reqStale, reqFresh], false, "en-US-AriaNeural", "+0%", "+0Hz", "+0%"⟩⟩

/-- C4: a dequeued request whose age exceeds 5 seconds is dropped silently —
the iteration performs no synthesis and no playback (its trace is empty) and
the worker state simply advances past it to the next queued item. -/
theorem tts_worker_staleness_drop (s : SystemState) (req : TTSRequest)
    (rest : List TTSRequest) (now : ℚ) (genOk escape : Bool)
    (hq : s.fast.voice_queue = req :: rest) (hstale : now - req.timestamp > 5) :
    tts_worker_step s now genOk escape =
      ({ s with fast := { s.fast with voice_queue := rest } }, []) := by
  simp [tts_worker_step, hq, hstale]

/-- Witness for C4: at time 6 the request stamped 0 is dropped, leaving the
fresh request at the head of the queue. -/
theorem tts_worker_staleness_drop_witness :
    sysQueued.fast.voice_queue = reqStale :: [reqFresh] ∧
    (6 : ℚ) - reqStale.timestamp > 5 ∧
    tts_worker_step sysQueued 6 true false =
      ({ sysQueued with fast := { sysQueued.fast with voice_queue := [reqFresh] } }, []) :=
  ⟨rfl, by norm_num [reqStale],
    tts_worker_staleness_drop sysQueued reqStale [reqFresh] 6 true false rfl
      (by norm_num [reqStale])⟩

/-- C5: the speaking gate is released on every exit path of a speak
operation: the `TTSService.speak` runner leaves `tts_playing` false whether
or not synthesis raised, and a fast-TTS worker whose gate is clear keeps it
clear across any iteration — including synthesis failure (`genOk = false`)
and an escaping exception (`escape = true`) — always consuming exactly the
head of the queue (so it proceeds to the next item) and completing one
iteration per input without crashing. -/
theorem speak_gate_released_on_all_paths (st : TTSState) (text : String)
    (synthFails : Bool) (s : SystemState) (now : ℚ) (genOk escape : Bool)
    (inputs : List (ℚ × Bool × Bool)) (h : s.fast.is_speaking = false) :
    (tts_speak_runner st text synthFails).1.tts_playing = false ∧
    (tts_worker_step s now genOk escape).1.fast.is_speaking = false ∧
    (tts_worker_step s now genOk escape).1.fast.voice_queue =
      s.fast.voice_queue.tail ∧
    (tts_worker_run s inputs).1.fast.is_speaking = false ∧
    (tts_worker_run s inputs).2.length = inputs.length := by
  obtain ⟨hrun1, hrun2⟩ := tts_worker_run_gate inputs s h
  exact ⟨rfl, tts_worker_step_gate s now genOk escape h,
    tts_worker_step_queue s now genOk escape, hrun1, hrun2⟩

/-- Witness for C5: a failing synthesis, an escaping worker exception and a
two-iteration run. -/
theorem speak_gate_released_on_all_paths_witness :
    sysQueued.fast.is_speaking = false ∧
    ((tts_speak_runner ⟨true⟩ "hi there" true).1.tts_playing = false ∧
      (tts_worker_step sysQueued 6 false true).1.fast.is_speaking = false ∧
      (tts_worker_step sysQueued 6 false true).1.fast.voice_queue =
        sysQueued.fast.voice_queue.tail ∧
      (tts_worker_run sysQueued [(6, false, true), (7, false, false)]).1.fast.is_speaking = false ∧
      (tts_worker_run sysQueued [(6, false, true), (7, false, false)]).2.length =
        ([(6, false, true), (7, false, false)] : List (ℚ × Bool × Bool)).length) :=
  ⟨rfl, speak_gate_released_on_all_paths ⟨true⟩ "hi there" true sysQueued 6 false true
    [(6, false, true), (7, false, false)] rfl⟩

/-- C6: a call arriving while `is_processing` is true is rejected — it
returns false, changes nothing and executes nothing; and every accepted
call, for any match primitive including a raising one, has cleared
`is_processing` again by the time it returns, so a subsequent call is
accepted. -/
theorem is_processing_guard_release (prim : String → String → Except String Bool)
    (st : ManagerState) (text : String) (lat : ℚ) :
    (st.is_processing = true →
      process_voice_input prim st text lat = ⟨st, Except.ok false, []⟩) ∧
    (st.is_processing = false →
      (process_voice_input prim st text lat).state.is_processing = false) := by
  constructor
  · intro h; simp [process_voice_input, h]
  · intro h
    cases hfc : findCommand prim st.custom_commands (normInput text) with
    | error e => simp [process_voice_input, h, hfc]
    | ok o =>
      cases o with
      | some c => simp [process_voice_input, h, hfc]
      | none =>
        cases hfb : findCommand prim st.commands (normInput text) with
        | error e => simp [process_voice_input, h, hfc, hfb]
        | ok o2 =>
          cases o2 with
          | some c => simp [process_voice_input, h, hfc, hfb]
          | none => simp [process_voice_input, h, hfc, hfb]

/-- Witness for C6: a rejected call under a set guard, and an accepted call
whose match primitive raises — the guard is clear on return. -/
theorem is_processing_guard_release_witness :
    ({ managerInit with is_processing := true } : ManagerState).is_processing = true ∧
    process_voice_input (fun _ _ => Except.error "bad regex")
        { managerInit with is_processing := true } "hello" 1 =
      ⟨{ managerInit with is_processing := true }, Except.ok false, []⟩ ∧
    managerInit.is_processing = false ∧
    (process_voice_input (fun _ _ => Except.error "bad regex")
      managerInit "hello" 1).state.is_processing = false :=
  ⟨rfl,
    (is_processing_guard_release (fun _ _ => Except.error "bad regex")
      { managerInit with is_processing := true } "hello" 1).1 rfl,
    rfl,
    (is_processing_guard_release (fun _ _ => Except.error "bad regex")
      managerInit "hello" 1).2 rfl⟩

/-- C7 counterexample: with the default registry, the accepted call on
"zzz" matches nothing, returns false — and records no latency sample: the
metrics buffer stays empty instead of growing by one. -/
theorem unmatched_attempt_records_no_latency :
    managerInit.is_processing = false ∧
    managerInit.response_times = [] ∧
    (process_voice_input (liftPrim reSearchLit) managerInit "zzz" 1).result =
      Except.ok false ∧
    (process_voice_input (liftPrim reSearchLit) managerInit "zzz" 1).state.response_times = [] :=
  ⟨rfl, rfl, by rfl, by rfl⟩

/-- C7 amended: an accepted call records its decision latency exactly when a
handler fired — on a match the buffer becomes `_record_response_time` of the
previous buffer (append, then keep the most recent 100); on no match the
buffer is unchanged. -/
theorem accepted_call_records_latency_iff_matched (prim : String → String → Bool)
    (st : ManagerState) (text : String) (lat : ℚ) (h : st.is_processing = false) :
    ((process_voice_input (liftPrim prim) st text lat).executed ≠ [] →
      (process_voice_input (liftPrim prim) st text lat).state.response_times =
        _record_response_time st.response_times lat) ∧
    ((process_voice_input (liftPrim prim) st text lat).executed = [] →
      (process_voice_input (liftPrim prim) st text lat).state.response_times =
        st.response_times) := by
  obtain ⟨he, -, -, ht⟩ := process_voice_input_lift prim st text lat h
  cases hf : (st.custom_commands ++ st.commands).find?
      (fun e => matchPatternB prim e.1 (normInput text)) with
  | some c =>
    rw [hf] at he ht
    constructor
    · intro _; rw [ht]; simp
    · intro hemp; rw [he] at hemp; simp at hemp
  | none =>
    rw [hf] at he ht
    constructor
    · intro hne; rw [he] at hne; simp at hne
    · intro _; rw [ht]; simp

/-- Witness for C7 amended: "hello" (matched) records one sample, "zzz"
(unmatched) records none. -/
theorem accepted_call_records_latency_iff_matched_witness :
    managerInit.is_processing = false ∧
    (process_voice_input (liftPrim reSearchLit) managerInit "hello" 1).executed ≠ [] ∧
    (process_voice_input (liftPrim reSearchLit) managerInit "hello" 1).state.response_times =
      _record_response_time managerInit.response_times 1 ∧
    (process_voice_input (liftPrim reSearchLit) managerInit "zzz" 2).executed = [] ∧
    (process_voice_input (liftPrim reSearchLit) managerInit "zzz" 2).state.response_times =
      managerInit.response_times :=
  ⟨rfl, by decide,
    (accepted_call_records_latency_iff_matched reSearchLit managerInit "hello" 1 rfl).1
      (by decide),
    by decide,
    (accepted_call_records_latency_iff_matched reSearchLit managerInit "zzz" 2 rfl).2
      (by decide)⟩

/-- C8: after recording any sequence of samples, the buffer holds exactly
the (at most 100) most recent ones — the oldest are evicted first — and the
reported average is their arithmetic mean, 0 when nothing was recorded; in
particular after 150 recordings only the last 100 contribute. -/
theorem metrics_bound_and_average (samples : List ℚ) :
    recordAll samples = samples.drop (samples.length - 100) ∧
    (recordAll samples).length = min samples.length 100 ∧
    get_average_response_time (recordAll samples) =
      (if samples.length = 0 then 0
        else (samples.drop (samples.length - 100)).sum /
          ((min samples.length 100 : ℕ) : ℚ)) := by
  have hd := recordAll_eq_drop samples
  have hlen : (recordAll samples).length = min samples.length 100 := by
    rw [hd, List.length_drop]; omega
  refine ⟨hd, hlen, ?_⟩
  by_cases h0 : samples.length = 0
  · have hnil : samples = [] := List.length_eq_zero.mp h0
    subst hnil; rfl
  · rw [if_neg h0]
    have hne : ¬ (recordAll samples).isEmpty = true := by
      rw [List.isEmpty_iff]
      intro hnil
      have := congrArg List.length hnil
      rw [hlen] at this
      simp only [List.length_nil] at this
      omega
    rw [get_average_response_time, if_neg hne, hd]
    congr 1
    rw [List.length_drop]
    norm_cast
    omega

/-- Erase the one field C9 quantifies over. -/
def erasePriority (c : VoiceCommand) : VoiceCommand :=
  { c with priority := CommandPriority.normal }

/-- A registry up to priorities: everything except each entry's `priority`
field. -/
def regShape (r : Registry) : List (String × VoiceCommand) :=
  r.map (fun e => (e.1, erasePriority e.2))

/-- C9: matching is independent of the `priority` field — two managers whose
registries agree up to priorities and whose guard flags agree return the
same value and select the same entry (the fired entries agree after erasing
priority). -/
theorem process_voice_input_priority_irrelevant (prim : String → String → Bool)
    (st1 st2 : ManagerState) (text : String) (lat : ℚ)
    (hcust : regShape st1.custom_commands = regShape st2.custom_commands)
    (hbuilt : regShape st1.commands = regShape st2.commands)
    (hproc : st1.is_processing = st2.is_processing) :
    (process_voice_input (liftPrim prim) st1 text lat).result =
      (process_voice_input (liftPrim prim) st2 text lat).result ∧
    regShape (process_voice_input (liftPrim prim) st1 text lat).executed =
      regShape (process_voice_input (liftPrim prim) st2 text lat).executed := by
  cases hp : st1.is_processing with
  | true =>
    have hp2 : st2.is_processing = true := by rw [← hproc]; exact hp
    simp [process_voice_input, hp, hp2, regShape]
  | false =>
    have hp2 : st2.is_processing = false := by rw [← hproc]; exact hp
    obtain ⟨he1, hr1, -, -⟩ := process_voice_input_lift prim st1 text lat hp
    obtain ⟨he2, hr2, -, -⟩ := process_voice_input_lift prim st2 text lat hp2
    have hmap : (st1.custom_commands ++ st1.commands).map
          (fun e => (e.1, erasePriority e.2)) =
        (st2.custom_commands ++ st2.commands).map
          (fun e => (e.1, erasePriority e.2)) := by
      simp only [List.map_append]
      exact congrArg₂ (· ++ ·) hcust hbuilt
    have hfind : (((st1.custom_commands ++ st1.commands).find?
          (fun e => matchPatternB prim e.1 (normInput text))).map
            (fun e => (e.1, erasePriority e.2))) =
        (((st2.custom_commands ++ st2.commands).find?
          (fun e => matchPatternB prim e.1 (normInput text))).map
            (fun e => (e.1, erasePriority e.2))) :=
      find?_map_congr (fun e : String × VoiceCommand => (e.1, erasePriority e.2))
        (fun b : String × VoiceCommand => matchPatternB prim b.1 (normInput text))
        _ _ hmap
    have hsome : ((st1.custom_commands ++ st1.commands).find?
          (fun e => matchPatternB prim e.1 (normInput text))).isSome =
        ((st2.custom_commands ++ st2.commands).find?
          (fun e => matchPatternB prim e.1 (normInput text))).isSome := by
      have := congrArg Option.isSome hfind
      simpa [Option.isSome_map] using this
    have htl : ∀ o : Option (String × VoiceCommand),
        (o.toList).map (fun e => (e.1, erasePriority e.2)) =
          (o.map (fun e => (e.1, erasePriority e.2))).toList := by
      intro o; cases o <;> rfl
    constructor
    · rw [hr1, hr2, hsome]
    · rw [he1, he2]
      simp only [regShape]
      rw [htl, htl, hfind]

/-- One-entry builtin registry, HIGH priority. -/
def stHigh : ManagerState :=
  ⟨[("hello", ⟨"hello", 7, "greet", CommandPriority.high, false, "ai"⟩)],
    [], [], false, []⟩

/-- The same registry with LOW priority. -/
def stLow : ManagerState :=
  ⟨[("hello", ⟨"hello", 7, "greet", CommandPriority.low, false, "ai"⟩)],
    [], [], false, []⟩

/-- Witness for C9: flipping the entry's priority from HIGH to LOW changes
neither the returned value nor the fired entry. -/
theorem process_voice_input_priority_irrelevant_witness :
    regShape stHigh.custom_commands = regShape stLow.custom_commands ∧
    regShape stHigh.commands = regShape stLow.commands ∧
    stHigh.is_processing = stLow.is_processing ∧
    ((process_voice_input (liftPrim reSearchLit) stHigh "hello" 1).result =
        (process_voice_input (liftPrim reSearchLit) stLow "hello" 1).result ∧
      regShape (process_voice_input (liftPrim reSearchLit) stHigh "hello" 1).executed =
        regShape (process_voice_input (liftPrim reSearchLit) stLow "hello" 1).executed) :=
  ⟨rfl, by decide, rfl,
    process_voice_input_priority_irrelevant reSearchLit stHigh stLow "hello" 1
      rfl (by decide) rfl⟩

/-- C10: no `FastTTSService` operation touches `TTSService` state — `speak`,
`speak_immediate` and a worker iteration all leave the `tts` component (in
particular `tts_playing`, the flag the background listener consults through
`is_playing`) unchanged; they only modify the fast service's own fields. -/
theorem fast_tts_never_touches_tts_playing (s : SystemState) (text : String)
    (voice rate pitch volume : Option String) (hasCallback : Bool) (now : ℚ)
    (genOk escape : Bool) :
    (fast_speak s text voice rate pitch volume hasCallback now).tts = s.tts ∧
    (fast_speak_immediate s text voice now).tts = s.tts ∧
    (tts_worker_step s now genOk escape).1.tts = s.tts := by
  refine ⟨?_, ?_, ?_⟩
  · by_cases h : s.fast.is_available <;> simp [fast_speak, h]
  · by_cases h : s.fast.is_available <;> simp [fast_speak_immediate, fast_speak, h]
  · rcases hq : s.fast.voice_queue with _ | ⟨req, rest⟩
    · simp [tts_worker_step, hq]
    · by_cases hst : now - req.timestamp > 5
      · simp [tts_worker_step, hq, hst]
      · by_cases hesc : escape <;> simp [tts_worker_step, hq, hst, hesc]

end Rose
